import Mathlib

/-!
Verification of the adaptive puzzle engine of the `mathermary` repository
(browser arithmetic practice game).  The JavaScript sources embedded here:

* `src/interface/scriptjs/config.js` — difficulty level configuration;
* `src/interface/scriptjs/puzzleGenerator.js` — puzzle generation
  (`generatePuzzle`, `generateSimplePuzzle`, `generateComplexPuzzle`,
  `generateMultFirst`, `generateParentheses`, `generateMixedOperations`);
* `src/interface/scriptjs/mlEngine.js` — the adaptive difficulty engine
  (`calculateNextDifficultyRuleBased`, `calculateNextDifficultyML`,
  `calculateNextDifficulty`);
* `src/interface/scriptjs/rating.js` — `calculateSessionRating`,
  `updatePlayerRating`.

JavaScript numbers are modelled by `Int` where the program only ever holds
integers, and by `ℚ` (or `ℝ` for the one transcendental ELO formula) where
fractions arise.  `Math.random()`-derived draws are modelled as explicit
inputs: every call of the form `Math.floor(Math.random() * k) + m` yields
exactly the integers in `[m, m + k - 1]`, which is captured by range
hypotheses on the corresponding field of `GenRand` below.
-/

/-- Tokens of a puzzle's display expression.  The source builds the display
as a string from template literals such as `` `${a} + ${b} × ${c}` ``; a
display is modelled as the corresponding sequence of number and operator
tokens. -/
inductive Tok where
  | num (n : Int)
  | plus
  | minus
  | times
  | divide
  | lparen
  | rparen
deriving DecidableEq, Repr

/-- Arithmetic expressions, the parse trees of displays. -/
inductive Expr where
  | num (n : Int)
  | add (a b : Expr)
  | sub (a b : Expr)
  | mul (a b : Expr)
  | div (a b : Expr)
deriving DecidableEq, Repr

/-- Exact arithmetic value of an expression; division is exact rational
division (every generated division has a nonzero divisor). -/
def Expr.eval : Expr → ℚ
  | .num n => n
  | .add a b => a.eval + b.eval
  | .sub a b => a.eval - b.eval
  | .mul a b => a.eval * b.eval
  | .div a b => a.eval / b.eval

/-- Every subtraction inside the expression has a minuend at least as large
as its subtrahend, i.e. no intermediate or final subtraction result is
negative. -/
def Expr.subNonneg : Expr → Prop
  | .num _ => True
  | .add a b => a.subNonneg ∧ b.subNonneg
  | .sub a b => a.subNonneg ∧ b.subNonneg ∧ b.eval ≤ a.eval
  | .mul a b => a.subNonneg ∧ b.subNonneg
  | .div a b => a.subNonneg ∧ b.subNonneg

/-- Every division inside the expression is exact: the divisor lies in
`[1,10]` and the dividend is the divisor times an integer quotient in
`[1,10]`. -/
def Expr.divExact : Expr → Prop
  | .num _ => True
  | .add a b => a.divExact ∧ b.divExact
  | .sub a b => a.divExact ∧ b.divExact
  | .mul a b => a.divExact ∧ b.divExact
  | .div a b => a.divExact ∧ b.divExact ∧ 1 ≤ b.eval ∧ b.eval ≤ 10 ∧
      ∃ q : Int, 1 ≤ q ∧ q ≤ 10 ∧ a.eval = b.eval * (q : ℚ)

/-!
A fuel-indexed recursive-descent reading of a token sequence under the
standard order-of-operations convention stated by the specification:
brackets first, then multiplication/division, then addition/subtraction,
each group associated left to right.  This is the specification-side
definition of "evaluating the display"; it is compared against the
`answer` field computed by the source.
-/

mutual

def parseFactor : Nat → List Tok → Option (Expr × List Tok)
  | 0, _ => none
  | _ + 1, Tok.num n :: rest => some (Expr.num n, rest)
  | fuel + 1, Tok.lparen :: rest =>
      match parseAddSub fuel rest with
      | some (e, Tok.rparen :: rest2) => some (e, rest2)
      | _ => none
  | _ + 1, _ => none

def parseMulDivAux : Nat → Expr → List Tok → Option (Expr × List Tok)
  | 0, _, _ => none
  | fuel + 1, acc, Tok.times :: rest =>
      match parseFactor fuel rest with
      | some (e, rest2) => parseMulDivAux fuel (Expr.mul acc e) rest2
      | none => none
  | fuel + 1, acc, Tok.divide :: rest =>
      match parseFactor fuel rest with
      | some (e, rest2) => parseMulDivAux fuel (Expr.div acc e) rest2
      | none => none
  | _ + 1, acc, rest => some (acc, rest)

def parseMulDiv : Nat → List Tok → Option (Expr × List Tok)
  | 0, _ => none
  | fuel + 1, ts =>
      match parseFactor fuel ts with
      | some (e, rest) => parseMulDivAux fuel e rest
      | none => none

def parseAddSubAux : Nat → Expr → List Tok → Option (Expr × List Tok)
  | 0, _, _ => none
  | fuel + 1, acc, Tok.plus :: rest =>
      match parseMulDiv fuel rest with
      | some (e, rest2) => parseAddSubAux fuel (Expr.add acc e) rest2
      | none => none
  | fuel + 1, acc, Tok.minus :: rest =>
      match parseMulDiv fuel rest with
      | some (e, rest2) => parseAddSubAux fuel (Expr.sub acc e) rest2
      | none => none
  | _ + 1, acc, rest => some (acc, rest)

def parseAddSub : Nat → List Tok → Option (Expr × List Tok)
  | 0, _ => none
  | fuel + 1, ts =>
      match parseMulDiv fuel ts with
      | some (e, rest) => parseAddSubAux fuel e rest
      | none => none

end

/-- Parse a complete display into its order-of-operations expression tree;
`none` if the token sequence is not a well-formed expression. -/
def parseDisplay (ts : List Tok) : Option Expr :=
  match parseAddSub (4 * ts.length + 4) ts with
  | some (e, []) => some e
  | _ => none

/-- Value of a display under standard order-of-operations, the
specification's `evaluate(display)`. -/
def evaluate (ts : List Tok) : Option ℚ :=
  (parseDisplay ts).map Expr.eval

example : parseDisplay [Tok.num 7, Tok.plus, Tok.num 3] =
    some (Expr.add (Expr.num 7) (Expr.num 3)) := rfl

example : parseDisplay [Tok.num 2, Tok.plus, Tok.num 3, Tok.times, Tok.num 4,
    Tok.minus, Tok.num 5] =
    some (Expr.sub (Expr.add (Expr.num 2) (Expr.mul (Expr.num 3) (Expr.num 4)))
      (Expr.num 5)) := rfl

example : parseDisplay [Tok.lparen, Tok.num 12, Tok.plus, Tok.num 8, Tok.rparen,
    Tok.times, Tok.lparen, Tok.num 15, Tok.minus, Tok.num 10, Tok.rparen] =
    some (Expr.mul (Expr.add (Expr.num 12) (Expr.num 8))
      (Expr.sub (Expr.num 15) (Expr.num 10))) := rfl

example : evaluate [Tok.num 30, Tok.minus, Tok.num 12, Tok.divide, Tok.num 3] =
    some 26 := by
  have h : parseDisplay [Tok.num 30, Tok.minus, Tok.num 12, Tok.divide, Tok.num 3] =
      some (Expr.sub (Expr.num 30) (Expr.div (Expr.num 12) (Expr.num 3))) := rfl
  rw [evaluate, h, Option.map_some']
  norm_num [Expr.eval]

/-!
Difficulty configuration, from `config.js` (`DIFFICULTY_LEVELS`).
Operations are the single characters `'+'`, `'-'`, `'×'`, `'÷'` of the
source's operation strings.
-/

/-- Per-level constant configuration record (`config.js`). -/
structure LevelConfig where
  name : String
  rangeMin : Int
  rangeMax : Int
  operations : List Char
  maxOperands : Nat
  useBodmas : Bool
  simpleProb : ℚ
deriving DecidableEq, Repr

/-- The `DIFFICULTY_LEVELS` object of `config.js`, keyed by level 0/1/2. -/
def DIFFICULTY_LEVELS : Fin 3 → LevelConfig
  | ⟨0, _⟩ =>
    { name := "Easy", rangeMin := 1, rangeMax := 10, operations := ['+', '-'],
      maxOperands := 2, useBodmas := false, simpleProb := 1.0 }
  | ⟨1, _⟩ =>
    { name := "Medium", rangeMin := 1, rangeMax := 20, operations := ['+', '-', '×'],
      maxOperands := 3, useBodmas := true, simpleProb := 0.5 }
  | ⟨_ + 2, _⟩ =>
    { name := "Hard", rangeMin := 10, rangeMax := 50, operations := ['+', '-', '×', '÷'],
      maxOperands := 4, useBodmas := true, simpleProb := 0.3 }

/-- One outcome of every random draw `puzzleGenerator.js` can make during a
single `generatePuzzle` call.  Each field is the value of the corresponding
`Math.random()`-derived expression in the source; the ranges those
expressions guarantee are collected in `GenRand.valid`. -/
structure GenRand where
  /-- outcome of `Math.random() < config.simpleProb`. -/
  useSimple : Bool
  /-- `Math.floor(Math.random() * config.operations.length)` in
  `generateSimplePuzzle` (an index into the operation list). -/
  opIdx : Nat
  /-- first `Math.floor(Math.random() * (max - min + 1)) + min` draw of
  `generateSimplePuzzle`. -/
  num1 : Int
  /-- second range draw of `generateSimplePuzzle`. -/
  num2 : Int
  /-- `Math.floor(Math.random() * 10) + 1` redraw of `num1` in the `'×'` case. -/
  mulNum1 : Int
  /-- `Math.floor(Math.random() * 10) + 1` redraw of `num2` in the `'×'` case. -/
  mulNum2 : Int
  /-- divisor draw `Math.floor(Math.random() * 10) + 1` in the `'÷'` case. -/
  divNum2 : Int
  /-- quotient draw `Math.floor(Math.random() * 10) + 1` in the `'÷'` case
  (the source stores it directly as `answer`). -/
  divAns : Int
  /-- `Math.floor(Math.random() * (config.maxOperands - 2))` in
  `generateComplexPuzzle`; the source's `numOperands` is this plus 3. -/
  numOperandsDraw : Nat
  /-- `Math.floor(Math.random() * problemTypes.length)` in
  `generateComplexPuzzle`. -/
  typeIdx : Nat
  /-- range draw for `a` in the complex generators. -/
  a : Int
  /-- range draw for `b` in the complex generators. -/
  b : Int
  /-- range draw for `c` in `generateParentheses` (4-operand form). -/
  c : Int
  /-- range draw for `d` in `generateParentheses` (4-operand form). -/
  d : Int
  /-- `Math.floor(Math.random() * 9) + 2` draw (the source's `b` in
  `generateMultFirst`/`generateMixedOperations`). -/
  smallB : Int
  /-- `Math.floor(Math.random() * 9) + 2` draw (the source's `c` in
  `generateMultFirst`, `generateMixedOperations` and the 3-operand form of
  `generateParentheses`). -/
  smallC : Int
  /-- outcome of `Math.random() < 0.5` choosing `innerOp = '+'` in
  `generateParentheses`. -/
  innerPlus : Bool
  /-- outcome of `Math.random() < 0.5` choosing `outerOp = '×'` in
  `generateParentheses`. -/
  outerMul : Bool
  /-- `Math.floor(Math.random() * Math.min(max, 20) - min + 1) + min` draw
  for `d` in `generateMixedOperations`; for rationals `x` and integers `k`,
  `⌊x - k⌋ = ⌊x⌋ - k`, so this draw is `⌊rand * Math.min(max, 20)⌋ + 1`,
  an integer in `[1, Math.min(max, 20)]`. -/
  mixedD : Int
  /-- `Math.floor(Math.random() * 10)` part of the `+ 5` inflation margin in
  `generateMixedOperations`. -/
  margin : Int
deriving DecidableEq, Repr

/-- The ranges that the `Math.random()`-derived expressions of
`puzzleGenerator.js` guarantee for each draw, for a given level
configuration. -/
def GenRand.valid (cfg : LevelConfig) (r : GenRand) : Prop :=
  (cfg.rangeMin ≤ r.num1 ∧ r.num1 ≤ cfg.rangeMax) ∧
  (cfg.rangeMin ≤ r.num2 ∧ r.num2 ≤ cfg.rangeMax) ∧
  (1 ≤ r.mulNum1 ∧ r.mulNum1 ≤ 10) ∧
  (1 ≤ r.mulNum2 ∧ r.mulNum2 ≤ 10) ∧
  (1 ≤ r.divNum2 ∧ r.divNum2 ≤ 10) ∧
  (1 ≤ r.divAns ∧ r.divAns ≤ 10) ∧
  (cfg.rangeMin ≤ r.a ∧ r.a ≤ cfg.rangeMax) ∧
  (cfg.rangeMin ≤ r.b ∧ r.b ≤ cfg.rangeMax) ∧
  (cfg.rangeMin ≤ r.c ∧ r.c ≤ cfg.rangeMax) ∧
  (cfg.rangeMin ≤ r.d ∧ r.d ≤ cfg.rangeMax) ∧
  (2 ≤ r.smallB ∧ r.smallB ≤ 10) ∧
  (2 ≤ r.smallC ∧ r.smallC ≤ 10) ∧
  (1 ≤ r.mixedD ∧ r.mixedD ≤ min cfg.rangeMax 20) ∧
  (0 ≤ r.margin ∧ r.margin ≤ 9)

instance (cfg : LevelConfig) (r : GenRand) : Decidable (r.valid cfg) := by
  unfold GenRand.valid; infer_instance

/-- The value object returned by the generators: `{ num1, num2, operation,
answer, display }`.  The `operation` field holds the source's operation
string (`"+"`, `"-"`, `"×"`, `"÷"`, `"complex"`, or `""` for the
unreachable `default` arm where JavaScript would hold `undefined`). -/
structure Puzzle where
  num1 : Int
  num2 : Int
  operation : String
  answer : Int
  display : List Tok
deriving DecidableEq, Repr

/-- `generateSimplePuzzle(config)` of `puzzleGenerator.js`.  The `switch`
on the drawn operation is a `match`; with an out-of-range index JavaScript
holds `undefined` and runs the `default` arm, reproduced by the `' '`
default of `getD` falling to the catch-all arm. -/
def generateSimplePuzzle (config : LevelConfig) (r : GenRand) : Puzzle :=
  match config.operations.getD r.opIdx ' ' with
  | '+' =>
    { num1 := r.num1, num2 := r.num2, operation := "+",
      answer := r.num1 + r.num2,
      display := [Tok.num r.num1, Tok.plus, Tok.num r.num2] }
  | '-' =>
    let n1 := if r.num2 > r.num1 then r.num2 else r.num1
    let n2 := if r.num2 > r.num1 then r.num1 else r.num2
    { num1 := n1, num2 := n2, operation := "-", answer := n1 - n2,
      display := [Tok.num n1, Tok.minus, Tok.num n2] }
  | '×' =>
    { num1 := r.mulNum1, num2 := r.mulNum2, operation := "×",
      answer := r.mulNum1 * r.mulNum2,
      display := [Tok.num r.mulNum1, Tok.times, Tok.num r.mulNum2] }
  | '÷' =>
    { num1 := r.divNum2 * r.divAns, num2 := r.divNum2, operation := "÷",
      answer := r.divAns,
      display := [Tok.num (r.divNum2 * r.divAns), Tok.divide, Tok.num r.divNum2] }
  | _ =>
    { num1 := r.num1, num2 := r.num2, operation := "",
      answer := r.num1 + r.num2,
      display := [Tok.num r.num1, Tok.plus, Tok.num r.num2] }

/-- `generateMultFirst(min, max)`: the pattern `a + b × c`. -/
def generateMultFirst (rmin rmax : Int) (r : GenRand) : Puzzle :=
  let a := r.a
  let b := r.smallB
  let c := r.smallC
  { num1 := a, num2 := b, operation := "complex", answer := a + b * c,
    display := [Tok.num a, Tok.plus, Tok.num b, Tok.times, Tok.num c] }

/-- `generateParentheses(min, max, numOperands)`: `(a OP1 b) OP2 c` for 3
operands, `(a + b) × (c - d)` otherwise. -/
def generateParentheses (rmin rmax : Int) (numOperands : Nat) (r : GenRand) : Puzzle :=
  if numOperands = 3 then
    let c := r.smallC
    let a := if r.innerPlus then r.a else (if r.b > r.a then r.b else r.a)
    let b := if r.innerPlus then r.b else (if r.b > r.a then r.a else r.b)
    let innerResult := if r.innerPlus then a + b else a - b
    let innerTok := if r.innerPlus then Tok.plus else Tok.minus
    if r.outerMul then
      { num1 := a, num2 := b, operation := "complex", answer := innerResult * c,
        display := [Tok.lparen, Tok.num a, innerTok, Tok.num b, Tok.rparen,
                    Tok.times, Tok.num c] }
    else
      { num1 := a, num2 := b, operation := "complex", answer := innerResult + c,
        display := [Tok.lparen, Tok.num a, innerTok, Tok.num b, Tok.rparen,
                    Tok.plus, Tok.num c] }
  else
    let a := if r.b > r.a then r.b else r.a
    let b := if r.b > r.a then r.a else r.b
    let c := if r.d > r.c then r.d else r.c
    let d := if r.d > r.c then r.c else r.d
    let left := a + b
    let right := c - d
    { num1 := a, num2 := b, operation := "complex", answer := left * right,
      display := [Tok.lparen, Tok.num a, Tok.plus, Tok.num b, Tok.rparen,
                  Tok.times,
                  Tok.lparen, Tok.num c, Tok.minus, Tok.num d, Tok.rparen] }

/-- `generateMixedOperations(min, max, numOperands)`: `a + b × c` for 3
operands; otherwise `a + b × c - d`, with `a` inflated by
`Math.abs(answer) + Math.floor(Math.random() * 10) + 5` whenever the first
computed answer is negative. -/
def generateMixedOperations (rmin rmax : Int) (numOperands : Nat) (r : GenRand) : Puzzle :=
  if numOperands = 3 then
    let a := r.a
    let b := r.smallB
    let c := r.smallC
    { num1 := a, num2 := b, operation := "complex", answer := a + b * c,
      display := [Tok.num a, Tok.plus, Tok.num b, Tok.times, Tok.num c] }
  else
    let b := r.smallB
    let c := r.smallC
    let d := r.mixedD
    let answer0 := r.a + b * c - d
    let a := if answer0 < 0 then r.a + |answer0| + r.margin + 5 else r.a
    { num1 := a, num2 := b, operation := "complex", answer := a + b * c - d,
      display := [Tok.num a, Tok.plus, Tok.num b, Tok.times, Tok.num c,
                  Tok.minus, Tok.num d] }

/-- `generateComplexPuzzle(config, level)` of `puzzleGenerator.js`.  With an
out-of-range type index JavaScript compares `undefined` against the two
named pattern strings and falls through to the final `else`; the default
`""` of `getD` reproduces exactly that fall-through. -/
def generateComplexPuzzle (config : LevelConfig) (level : Fin 3) (r : GenRand) : Puzzle :=
  let rmin := config.rangeMin
  let rmax := config.rangeMax
  let numOperands := r.numOperandsDraw + 3
  let problemTypes :=
    if level.val = 1 then ["multiplication_first", "parentheses"]
    else ["multiplication_first", "parentheses", "mixed_operations"]
  let problemType := problemTypes.getD r.typeIdx ""
  if problemType = "multiplication_first" then generateMultFirst rmin rmax r
  else if problemType = "parentheses" then generateParentheses rmin rmax numOperands r
  else generateMixedOperations rmin rmax numOperands r

/-- `generatePuzzle(level)` of `puzzleGenerator.js`. -/
def generatePuzzle (level : Fin 3) (r : GenRand) : Puzzle :=
  let config := DIFFICULTY_LEVELS level
  if r.useSimple || !config.useBodmas then generateSimplePuzzle config r
  else generateComplexPuzzle config level r

/-!
The generator invariants stated by the specification, bundled: the display
parses, its order-of-operations value is the stored answer, the answer is
non-negative, every division is exact, and every subtraction result is
non-negative.
-/

/-- Bundle of all generator invariants for one produced puzzle. -/
def PuzzleOK (p : Puzzle) : Prop :=
  ∃ e : Expr, parseDisplay p.display = some e ∧
    e.eval = (p.answer : ℚ) ∧ 0 ≤ p.answer ∧ e.divExact ∧ e.subNonneg

lemma generateSimplePuzzle_ok (config : LevelConfig) (r : GenRand)
    (hmin : 1 ≤ config.rangeMin) (hv : r.valid config) :
    PuzzleOK (generateSimplePuzzle config r) := by
  obtain ⟨⟨h11, -⟩, ⟨h21, -⟩, ⟨hm11, -⟩, ⟨hm21, -⟩, ⟨hd1, hd2⟩, ⟨hq1, hq2⟩, -⟩ := hv
  unfold generateSimplePuzzle
  split
  · refine ⟨_, rfl, ?_, ?_, by simp [Expr.divExact], by simp [Expr.subNonneg]⟩
    · show (r.num1 : ℚ) + (r.num2 : ℚ) = ((r.num1 + r.num2 : Int) : ℚ)
      push_cast; ring
    · show (0 : Int) ≤ r.num1 + r.num2
      omega
  · by_cases hsw : r.num2 > r.num1
    · simp only [if_pos hsw]
      refine ⟨_, rfl, ?_, ?_, by simp [Expr.divExact], ⟨trivial, trivial, ?_⟩⟩
      · show (r.num2 : ℚ) - (r.num1 : ℚ) = ((r.num2 - r.num1 : Int) : ℚ)
        push_cast; ring
      · show (0 : Int) ≤ r.num2 - r.num1
        omega
      · show (r.num1 : ℚ) ≤ (r.num2 : ℚ)
        exact_mod_cast le_of_lt hsw
    · simp only [if_neg hsw]
      refine ⟨_, rfl, ?_, ?_, by simp [Expr.divExact], ⟨trivial, trivial, ?_⟩⟩
      · show (r.num1 : ℚ) - (r.num2 : ℚ) = ((r.num1 - r.num2 : Int) : ℚ)
        push_cast; ring
      · show (0 : Int) ≤ r.num1 - r.num2
        omega
      · show (r.num2 : ℚ) ≤ (r.num1 : ℚ)
        exact_mod_cast le_of_not_lt hsw
  · refine ⟨_, rfl, ?_, ?_, by simp [Expr.divExact], by simp [Expr.subNonneg]⟩
    · show (r.mulNum1 : ℚ) * (r.mulNum2 : ℚ) = ((r.mulNum1 * r.mulNum2 : Int) : ℚ)
      push_cast; ring
    · show (0 : Int) ≤ r.mulNum1 * r.mulNum2
      exact mul_nonneg (by omega) (by omega)
  · refine ⟨_, rfl, ?_, ?_, ?_, by simp [Expr.subNonneg]⟩
    · have hdn : (r.divNum2 : ℚ) ≠ 0 := by
        exact_mod_cast (by omega : r.divNum2 ≠ 0)
      show ((r.divNum2 * r.divAns : Int) : ℚ) / (r.divNum2 : ℚ) = (r.divAns : ℚ)
      push_cast
      rw [mul_comm]
      exact mul_div_cancel_right₀ _ hdn
    · show (0 : Int) ≤ r.divAns
      omega
    · refine ⟨trivial, trivial, ?_, ?_, r.divAns, hq1, hq2, ?_⟩
      · show (1 : ℚ) ≤ (r.divNum2 : ℚ)
        exact_mod_cast hd1
      · show (r.divNum2 : ℚ) ≤ 10
        exact_mod_cast hd2
      · show ((r.divNum2 * r.divAns : Int) : ℚ) = (r.divNum2 : ℚ) * (r.divAns : ℚ)
        push_cast; ring
  · refine ⟨_, rfl, ?_, ?_, by simp [Expr.divExact], by simp [Expr.subNonneg]⟩
    · show (r.num1 : ℚ) + (r.num2 : ℚ) = ((r.num1 + r.num2 : Int) : ℚ)
      push_cast; ring
    · show (0 : Int) ≤ r.num1 + r.num2
      omega

lemma generateMultFirst_ok (rmin rmax : Int) (r : GenRand)
    (hmin : 1 ≤ rmin) (ha : rmin ≤ r.a) (hb : 2 ≤ r.smallB) (hc : 2 ≤ r.smallC) :
    PuzzleOK (generateMultFirst rmin rmax r) := by
  refine ⟨_, rfl, ?_, ?_, by simp [Expr.divExact], by simp [Expr.subNonneg]⟩
  · show (r.a : ℚ) + (r.smallB : ℚ) * (r.smallC : ℚ) =
      ((r.a + r.smallB * r.smallC : Int) : ℚ)
    push_cast; ring
  · show (0 : Int) ≤ r.a + r.smallB * r.smallC
    have : (0 : Int) ≤ r.smallB * r.smallC := mul_nonneg (by omega) (by omega)
    omega

lemma generateParentheses_ok (rmin rmax : Int) (numOperands : Nat) (r : GenRand)
    (hmin : 1 ≤ rmin) (ha : rmin ≤ r.a) (hb : rmin ≤ r.b)
    (hc : rmin ≤ r.c) (hd : rmin ≤ r.d) (hsc : 2 ≤ r.smallC) :
    PuzzleOK (generateParentheses rmin rmax numOperands r) := by
  unfold generateParentheses
  by_cases h3 : numOperands = 3
  · simp only [if_pos h3]
    rcases hip : r.innerPlus with _ | _
    · -- innerOp is '-'
      by_cases hba : r.b > r.a
      · simp only [hip, hba, if_pos, if_neg, Bool.false_eq_true, if_false, if_true]
        rcases hom : r.outerMul with _ | _
        · refine ⟨_, rfl, ?_, ?_, by simp [Expr.divExact],
            ⟨⟨trivial, trivial, ?_⟩, trivial⟩⟩
          · show ((r.b : ℚ) - (r.a : ℚ)) + (r.smallC : ℚ) =
              (((r.b - r.a) + r.smallC : Int) : ℚ)
            push_cast; ring
          · show (0 : Int) ≤ (r.b - r.a) + r.smallC
            omega
          · show (r.a : ℚ) ≤ (r.b : ℚ)
            exact_mod_cast le_of_lt hba
        · refine ⟨_, rfl, ?_, ?_, by simp [Expr.divExact],
            ⟨⟨trivial, trivial, ?_⟩, trivial⟩⟩
          · show ((r.b : ℚ) - (r.a : ℚ)) * (r.smallC : ℚ) =
              (((r.b - r.a) * r.smallC : Int) : ℚ)
            push_cast; ring
          · show (0 : Int) ≤ (r.b - r.a) * r.smallC
            exact mul_nonneg (by omega) (by omega)
          · show (r.a : ℚ) ≤ (r.b : ℚ)
            exact_mod_cast le_of_lt hba
      · simp only [hip, hba, if_pos, if_neg, Bool.false_eq_true, if_false, if_true]
        rcases hom : r.outerMul with _ | _
        · refine ⟨_, rfl, ?_, ?_, by simp [Expr.divExact],
            ⟨⟨trivial, trivial, ?_⟩, trivial⟩⟩
          · show ((r.a : ℚ) - (r.b : ℚ)) + (r.smallC : ℚ) =
              (((r.a - r.b) + r.smallC : Int) : ℚ)
            push_cast; ring
          · show (0 : Int) ≤ (r.a - r.b) + r.smallC
            omega
          · show (r.b : ℚ) ≤ (r.a : ℚ)
            exact_mod_cast le_of_not_lt hba
        · refine ⟨_, rfl, ?_, ?_, by simp [Expr.divExact],
            ⟨⟨trivial, trivial, ?_⟩, trivial⟩⟩
          · show ((r.a : ℚ) - (r.b : ℚ)) * (r.smallC : ℚ) =
              (((r.a - r.b) * r.smallC : Int) : ℚ)
            push_cast; ring
          · show (0 : Int) ≤ (r.a - r.b) * r.smallC
            exact mul_nonneg (by omega) (by omega)
          · show (r.b : ℚ) ≤ (r.a : ℚ)
            exact_mod_cast le_of_not_lt hba
    · -- innerOp is '+'
      simp only [hip, if_pos, if_true]
      rcases hom : r.outerMul with _ | _
      · refine ⟨_, rfl, ?_, ?_, by simp [Expr.divExact], by simp [Expr.subNonneg]⟩
        · show ((r.a : ℚ) + (r.b : ℚ)) + (r.smallC : ℚ) =
            (((r.a + r.b) + r.smallC : Int) : ℚ)
          push_cast; ring
        · show (0 : Int) ≤ (r.a + r.b) + r.smallC
          omega
      · refine ⟨_, rfl, ?_, ?_, by simp [Expr.divExact], by simp [Expr.subNonneg]⟩
        · show ((r.a : ℚ) + (r.b : ℚ)) * (r.smallC : ℚ) =
            (((r.a + r.b) * r.smallC : Int) : ℚ)
          push_cast; ring
        · show (0 : Int) ≤ (r.a + r.b) * r.smallC
          exact mul_nonneg (by omega) (by omega)
  · simp only [if_neg h3]
    by_cases hba : r.b > r.a <;> by_cases hdc : r.d > r.c <;>
      simp only [hba, hdc, if_pos, if_neg, if_true, if_false]
    · refine ⟨_, rfl, ?_, ?_, by simp [Expr.divExact],
        ⟨⟨trivial, trivial⟩, trivial, trivial, ?_⟩⟩
      · show ((r.b : ℚ) + (r.a : ℚ)) * ((r.d : ℚ) - (r.c : ℚ)) =
          (((r.b + r.a) * (r.d - r.c) : Int) : ℚ)
        push_cast; ring
      · show (0 : Int) ≤ (r.b + r.a) * (r.d - r.c)
        exact mul_nonneg (by omega) (by omega)
      · show (r.c : ℚ) ≤ (r.d : ℚ)
        exact_mod_cast le_of_lt hdc
    · refine ⟨_, rfl, ?_, ?_, by simp [Expr.divExact],
        ⟨⟨trivial, trivial⟩, trivial, trivial, ?_⟩⟩
      · show ((r.b : ℚ) + (r.a : ℚ)) * ((r.c : ℚ) - (r.d : ℚ)) =
          (((r.b + r.a) * (r.c - r.d) : Int) : ℚ)
        push_cast; ring
      · show (0 : Int) ≤ (r.b + r.a) * (r.c - r.d)
        exact mul_nonneg (by omega) (by omega)
      · show (r.d : ℚ) ≤ (r.c : ℚ)
        exact_mod_cast le_of_not_lt hdc
    · refine ⟨_, rfl, ?_, ?_, by simp [Expr.divExact],
        ⟨⟨trivial, trivial⟩, trivial, trivial, ?_⟩⟩
      · show ((r.a : ℚ) + (r.b : ℚ)) * ((r.d : ℚ) - (r.c : ℚ)) =
          (((r.a + r.b) * (r.d - r.c) : Int) : ℚ)
        push_cast; ring
      · show (0 : Int) ≤ (r.a + r.b) * (r.d - r.c)
        exact mul_nonneg (by omega) (by omega)
      · show (r.c : ℚ) ≤ (r.d : ℚ)
        exact_mod_cast le_of_lt hdc
    · refine ⟨_, rfl, ?_, ?_, by simp [Expr.divExact],
        ⟨⟨trivial, trivial⟩, trivial, trivial, ?_⟩⟩
      · show ((r.a : ℚ) + (r.b : ℚ)) * ((r.c : ℚ) - (r.d : ℚ)) =
          (((r.a + r.b) * (r.c - r.d) : Int) : ℚ)
        push_cast; ring
      · show (0 : Int) ≤ (r.a + r.b) * (r.c - r.d)
        exact mul_nonneg (by omega) (by omega)
      · show (r.d : ℚ) ≤ (r.c : ℚ)
        exact_mod_cast le_of_not_lt hdc

lemma generateMixedOperations_ok (rmin rmax : Int) (numOperands : Nat) (r : GenRand)
    (hmin : 1 ≤ rmin) (ha : rmin ≤ r.a) (hb : 2 ≤ r.smallB) (hc : 2 ≤ r.smallC)
    (hm : 0 ≤ r.margin) :
    PuzzleOK (generateMixedOperations rmin rmax numOperands r) := by
  unfold generateMixedOperations
  by_cases h3 : numOperands = 3
  · simp only [if_pos h3]
    refine ⟨_, rfl, ?_, ?_, by simp [Expr.divExact], by simp [Expr.subNonneg]⟩
    · show (r.a : ℚ) + (r.smallB : ℚ) * (r.smallC : ℚ) =
        ((r.a + r.smallB * r.smallC : Int) : ℚ)
      push_cast; ring
    · show (0 : Int) ≤ r.a + r.smallB * r.smallC
      have : (0 : Int) ≤ r.smallB * r.smallC := mul_nonneg (by omega) (by omega)
      omega
  · simp only [if_neg h3]
    by_cases hneg : r.a + r.smallB * r.smallC - r.mixedD < 0
    · simp only [if_pos hneg]
      have habs : |r.a + r.smallB * r.smallC - r.mixedD| =
          -(r.a + r.smallB * r.smallC - r.mixedD) := abs_of_neg hneg
      have hnn : (0 : Int) ≤
          (r.a + |r.a + r.smallB * r.smallC - r.mixedD| + r.margin + 5) +
            r.smallB * r.smallC - r.mixedD := by
        rw [habs]; linarith
      refine ⟨_, rfl, ?_, hnn, by simp [Expr.divExact],
        ⟨⟨trivial, trivial, trivial⟩, trivial, ?_⟩⟩
      · show ((r.a + |r.a + r.smallB * r.smallC - r.mixedD| + r.margin + 5 : Int) : ℚ) +
            (r.smallB : ℚ) * (r.smallC : ℚ) - (r.mixedD : ℚ) =
          (((r.a + |r.a + r.smallB * r.smallC - r.mixedD| + r.margin + 5) +
            r.smallB * r.smallC - r.mixedD : Int) : ℚ)
        push_cast; ring
      · show (r.mixedD : ℚ) ≤
          ((r.a + |r.a + r.smallB * r.smallC - r.mixedD| + r.margin + 5 : Int) : ℚ) +
            (r.smallB : ℚ) * (r.smallC : ℚ)
        have h' : r.mixedD ≤
            (r.a + |r.a + r.smallB * r.smallC - r.mixedD| + r.margin + 5) +
              r.smallB * r.smallC := by omega
        exact_mod_cast h'
    · simp only [if_neg hneg]
      have hnn : (0 : Int) ≤ r.a + r.smallB * r.smallC - r.mixedD := by omega
      refine ⟨_, rfl, ?_, hnn, by simp [Expr.divExact],
        ⟨⟨trivial, trivial, trivial⟩, trivial, ?_⟩⟩
      · show (r.a : ℚ) + (r.smallB : ℚ) * (r.smallC : ℚ) - (r.mixedD : ℚ) =
          ((r.a + r.smallB * r.smallC - r.mixedD : Int) : ℚ)
        push_cast; ring
      · show (r.mixedD : ℚ) ≤ (r.a : ℚ) + (r.smallB : ℚ) * (r.smallC : ℚ)
        have h' : r.mixedD ≤ r.a + r.smallB * r.smallC := by omega
        exact_mod_cast h'

lemma generateComplexPuzzle_ok (config : LevelConfig) (level : Fin 3) (r : GenRand)
    (hmin : 1 ≤ config.rangeMin) (hv : r.valid config) :
    PuzzleOK (generateComplexPuzzle config level r) := by
  obtain ⟨-, -, -, -, -, -, ⟨ha1, -⟩, ⟨hb1, -⟩, ⟨hc1, -⟩, ⟨hd1, -⟩,
    ⟨hsb, -⟩, ⟨hsc, -⟩, -, ⟨hmg, -⟩⟩ := hv
  unfold generateComplexPuzzle
  by_cases hl : level.val = 1
  · simp only [if_pos hl]
    split_ifs
    · exact generateMultFirst_ok _ _ r hmin ha1 hsb hsc
    · exact generateParentheses_ok _ _ _ r hmin ha1 hb1 hc1 hd1 hsc
    · exact generateMixedOperations_ok _ _ _ r hmin ha1 hsb hsc hmg
  · simp only [if_neg hl]
    split_ifs
    · exact generateMultFirst_ok _ _ r hmin ha1 hsb hsc
    · exact generateParentheses_ok _ _ _ r hmin ha1 hb1 hc1 hd1 hsc
    · exact generateMixedOperations_ok _ _ _ r hmin ha1 hsb hsc hmg

lemma generatePuzzle_ok (level : Fin 3) (r : GenRand)
    (hv : r.valid (DIFFICULTY_LEVELS level)) :
    PuzzleOK (generatePuzzle level r) := by
  have hmin : 1 ≤ (DIFFICULTY_LEVELS level).rangeMin := by
    fin_cases level <;> decide
  simp only [generatePuzzle]
  split_ifs
  · exact generateSimplePuzzle_ok _ r hmin hv
  · exact generateComplexPuzzle_ok _ level r hmin hv

/-- Concrete draw outcome used to instantiate the C1 theorem. -/
def randC1 : GenRand :=
  { useSimple := true, opIdx := 0, num1 := 7, num2 := 3, mulNum1 := 2, mulNum2 := 3,
    divNum2 := 4, divAns := 5, numOperandsDraw := 0, typeIdx := 0, a := 1, b := 2,
    c := 3, d := 1, smallB := 2, smallC := 2, innerPlus := true, outerMul := true,
    mixedD := 1, margin := 0 }

/-- C1: for every valid difficulty level (0, 1 or 2) and every outcome of the
internal random source, the puzzle returned by `generatePuzzle` has an
`answer` equal to the evaluation of its display expression under standard
order-of-operations (brackets, then multiplication/division, then
addition/subtraction, left to right). -/
theorem generatePuzzle_evaluate_display (level : Fin 3) (r : GenRand)
    (hv : r.valid (DIFFICULTY_LEVELS level)) :
    evaluate (generatePuzzle level r).display =
      some ((generatePuzzle level r).answer : ℚ) := by
  obtain ⟨e, hp, he, -⟩ := generatePuzzle_ok level r hv
  rw [evaluate, hp, Option.map_some', he]

theorem generatePuzzle_evaluate_display_witness :
    randC1.valid (DIFFICULTY_LEVELS 0) ∧
      evaluate (generatePuzzle 0 randC1).display =
        some ((generatePuzzle 0 randC1).answer : ℚ) :=
  ⟨by decide, generatePuzzle_evaluate_display 0 randC1 (by decide)⟩

/-- Concrete Hard-level draw taking the `'÷'` branch, used to instantiate
the C8 theorem. -/
def randC8 : GenRand :=
  { useSimple := true, opIdx := 3, num1 := 10, num2 := 10, mulNum1 := 2, mulNum2 := 3,
    divNum2 := 3, divAns := 4, numOperandsDraw := 0, typeIdx := 0, a := 10, b := 10,
    c := 10, d := 10, smallB := 2, smallC := 2, innerPlus := true, outerMul := true,
    mixedD := 1, margin := 0 }

/-- C8: for every valid level and every outcome of the random source, every
division in the generated puzzle's expression is exact — the divisor lies
in `[1,10]` and the dividend is the divisor times an integer quotient in
`[1,10]` (in particular the claim's conditional form, restricted to the
puzzles that contain a division, follows). -/
theorem generatePuzzle_divisions_exact (level : Fin 3) (r : GenRand)
    (hv : r.valid (DIFFICULTY_LEVELS level)) :
    ∃ e : Expr, parseDisplay (generatePuzzle level r).display = some e ∧
      e.divExact := by
  obtain ⟨e, hp, -, -, hdiv, -⟩ := generatePuzzle_ok level r hv
  exact ⟨e, hp, hdiv⟩

theorem generatePuzzle_divisions_exact_witness :
    randC8.valid (DIFFICULTY_LEVELS 2) ∧
      (∃ e : Expr, parseDisplay (generatePuzzle 2 randC8).display = some e ∧
        e.divExact) :=
  ⟨by decide, generatePuzzle_divisions_exact 2 randC8 (by decide)⟩

/-- Concrete Easy-level draw taking the `'-'` branch with a swap, used to
instantiate the C9 theorem. -/
def randC9 : GenRand :=
  { useSimple := true, opIdx := 1, num1 := 3, num2 := 9, mulNum1 := 2, mulNum2 := 3,
    divNum2 := 3, divAns := 4, numOperandsDraw := 0, typeIdx := 0, a := 1, b := 2,
    c := 3, d := 1, smallB := 2, smallC := 2, innerPlus := true, outerMul := true,
    mixedD := 1, margin := 0 }

/-- C9: for every valid level and every outcome of the random source, no
subtraction inside the generated puzzle's expression has a negative result
under order-of-operations evaluation — each minuend is at least its
subtrahend (the generator swaps or inflates operands to guarantee it). -/
theorem generatePuzzle_subtractions_nonneg (level : Fin 3) (r : GenRand)
    (hv : r.valid (DIFFICULTY_LEVELS level)) :
    ∃ e : Expr, parseDisplay (generatePuzzle level r).display = some e ∧
      e.subNonneg := by
  obtain ⟨e, hp, -, -, -, hsub⟩ := generatePuzzle_ok level r hv
  exact ⟨e, hp, hsub⟩

theorem generatePuzzle_subtractions_nonneg_witness :
    randC9.valid (DIFFICULTY_LEVELS 0) ∧
      (∃ e : Expr, parseDisplay (generatePuzzle 0 randC9).display = some e ∧
        e.subNonneg) :=
  ⟨by decide, generatePuzzle_subtractions_nonneg 0 randC9 (by decide)⟩

/-- Valid Easy-level draw in which both subtraction operands are 5. -/
def randC2 : GenRand :=
  { useSimple := true, opIdx := 1, num1 := 5, num2 := 5, mulNum1 := 2, mulNum2 := 3,
    divNum2 := 3, divAns := 4, numOperandsDraw := 0, typeIdx := 0, a := 1, b := 2,
    c := 3, d := 1, smallB := 2, smallC := 2, innerPlus := true, outerMul := true,
    mixedD := 1, margin := 0 }

/-- C2 is violated by the code: on the valid Easy-level outcome `randC2`
(subtraction draw `5` and `5`, a possible outcome of
`Math.floor(Math.random() * 10) + 1` twice with operation index 1) the
generated puzzle is `5 - 5` with answer `0`, which is not strictly
positive.  The repository's own documentation and test snippet assert
strictly positive answers, so this is a code bug rather than a spec error. -/
theorem generatePuzzle_answer_zero_on_equal_subtrahend :
    randC2.valid (DIFFICULTY_LEVELS 0) ∧
      (generatePuzzle 0 randC2).answer = 0 ∧
      ¬ 0 < (generatePuzzle 0 randC2).answer :=
  ⟨by decide, by decide, by decide⟩

/-!
The adaptive difficulty engine, from `mlEngine.js`.  A performance record
(`gameState.performance` entry, built in `script.js`) also carries the
puzzle text and the submitted/correct answers, but the engine reads only
the `correct` flag and the response `time`; the record is modelled by
those two fields.
-/

/-- One attempt record as read by the engine: correctness flag and elapsed
response time in milliseconds. -/
structure Perf where
  correct : Bool
  time : Int
deriving DecidableEq, Repr

/-- `perfHistory.slice(-3)`: the last `min 3 length` records in order. -/
def recentWindow (perfHistory : List Perf) : List Perf :=
  perfHistory.drop (perfHistory.length - 3)

/-- `recent.filter(p => p.correct).length / recent.length`, as computed
identically in `calculateNextDifficultyML` and
`calculateNextDifficultyRuleBased`. -/
def recentAccuracy (perfHistory : List Perf) : ℚ :=
  (((recentWindow perfHistory).filter (fun p => p.correct)).length : ℚ) /
    ((recentWindow perfHistory).length : ℚ)

/-- `recent.reduce((sum, p) => sum + p.time, 0) / recent.length`, as
computed identically in both engine functions. -/
def recentAvgTime (perfHistory : List Perf) : ℚ :=
  ((((recentWindow perfHistory).map (fun p => p.time)).sum : Int) : ℚ) /
    ((recentWindow perfHistory).length : ℚ)

/-- `calculateNextDifficultyRuleBased(currentDiff, perfHistory)` of
`mlEngine.js`. -/
def calculateNextDifficultyRuleBased (currentDiff : Int) (perfHistory : List Perf) : Int :=
  if perfHistory.length < 2 then currentDiff
  else
    let score : Int :=
      if recentAccuracy perfHistory ≥ 0.8 ∧ recentAvgTime perfHistory < 8000 then 1
      else if recentAccuracy perfHistory ≥ 0.67 then 0
      else -1
    max 0 (min 2 (currentDiff + score))

/-- The trailing run of correct answers counted backwards from the most
recent record (`correctStreak` loop in `calculateNextDifficultyML`). -/
def correctStreak (perfHistory : List Perf) : Nat :=
  (perfHistory.reverse.takeWhile (fun p => p.correct)).length

/-- The 5-entry normalized feature vector `calculateNextDifficultyML`
passes to the model. -/
def mlFeatures (currentDiff : Int) (perfHistory : List Perf) : List ℚ :=
  [recentAccuracy perfHistory,
   recentAvgTime perfHistory / 15000,
   (currentDiff : ℚ) / 2,
   min ((correctStreak perfHistory : ℚ) / 5) 1,
   min ((perfHistory.length : ℚ) / 10) 1]

/-- The external TensorFlow model (`adaptiveModel`): given the feature
vector it either returns the three softmax output probabilities or fails
(`none` models a thrown prediction error, caught by the source's
`try/catch`). -/
structure MLPredictor where
  predict : List ℚ → Option (ℚ × ℚ × ℚ)

/-- `predictionData.indexOf(Math.max(...predictionData))` for the 3-entry
output array: the first index attaining the maximum. -/
def predictedDiffOfData (p0 p1 p2 : ℚ) : Int :=
  if p0 = max p0 (max p1 p2) then 0
  else if p1 = max p0 (max p1 p2) then 1
  else 2

/-- `calculateNextDifficultyML(currentDiff, perfHistory)` of `mlEngine.js`,
with the global `modelTrained` flag and the model passed explicitly.  The
caught-exception path of the source's `try/catch` is the `none` branch. -/
def calculateNextDifficultyML (modelTrained : Bool) (adaptiveModel : MLPredictor)
    (currentDiff : Int) (perfHistory : List Perf) : Int :=
  if ¬modelTrained ∨ perfHistory.length < 2 then
    calculateNextDifficultyRuleBased currentDiff perfHistory
  else
    match adaptiveModel.predict (mlFeatures currentDiff perfHistory) with
    | none => calculateNextDifficultyRuleBased currentDiff perfHistory
    | some (p0, p1, p2) => predictedDiffOfData p0 p1 p2

/-- `calculateNextDifficulty(currentDiff, perfHistory)` of `mlEngine.js`,
the wrapper the game calls after every round. -/
def calculateNextDifficulty (modelTrained : Bool) (adaptiveModel : MLPredictor)
    (currentDiff : Int) (perfHistory : List Perf) : Int :=
  if modelTrained then
    calculateNextDifficultyML modelTrained adaptiveModel currentDiff perfHistory
  else calculateNextDifficultyRuleBased currentDiff perfHistory

/-- History used to instantiate the C3 theorem: two fast correct answers. -/
def histC3 : List Perf := [⟨true, 1000⟩, ⟨true, 1000⟩]

/-- C3: for every current level `d ∈ {0,1,2}` and history with at least 2
records, the rule-based decision returns `min (d+1) 2` when windowed
accuracy is at least 0.80 and average time is below 8000 ms, `d` when that
first condition fails but accuracy is at least 0.67, and `max (d-1) 0`
when accuracy is below 0.67. -/
theorem calculateNextDifficultyRuleBased_cases (d : Int) (h : List Perf)
    (hd0 : 0 ≤ d) (hd2 : d ≤ 2) (hlen : 2 ≤ h.length) :
    (recentAccuracy h ≥ 0.8 ∧ recentAvgTime h < 8000 →
      calculateNextDifficultyRuleBased d h = min (d + 1) 2) ∧
    (¬(recentAccuracy h ≥ 0.8 ∧ recentAvgTime h < 8000) →
      recentAccuracy h ≥ 0.67 → calculateNextDifficultyRuleBased d h = d) ∧
    (recentAccuracy h < 0.67 →
      calculateNextDifficultyRuleBased d h = max (d - 1) 0) := by
  unfold calculateNextDifficultyRuleBased
  rw [if_neg (by omega)]
  refine ⟨?_, ?_, ?_⟩
  · intro hc
    rw [if_pos hc]
    show max 0 (min 2 (d + 1)) = min (d + 1) 2
    omega
  · intro hc ha
    rw [if_neg hc, if_pos ha]
    show max 0 (min 2 (d + 0)) = d
    omega
  · intro hc
    have h1 : ¬(recentAccuracy h ≥ 0.8 ∧ recentAvgTime h < 8000) := by
      rintro ⟨ha, -⟩; linarith
    have h2 : ¬recentAccuracy h ≥ 0.67 := by linarith
    rw [if_neg h1, if_neg h2]
    show max 0 (min 2 (d + -1)) = max (d - 1) 0
    omega

theorem calculateNextDifficultyRuleBased_cases_witness :
    ((0 : Int) ≤ 0 ∧ (0 : Int) ≤ 2 ∧ 2 ≤ histC3.length) ∧
    ((recentAccuracy histC3 ≥ 0.8 ∧ recentAvgTime histC3 < 8000 →
        calculateNextDifficultyRuleBased 0 histC3 = min (0 + 1) 2) ∧
      (¬(recentAccuracy histC3 ≥ 0.8 ∧ recentAvgTime histC3 < 8000) →
        recentAccuracy histC3 ≥ 0.67 →
          calculateNextDifficultyRuleBased 0 histC3 = 0) ∧
      (recentAccuracy histC3 < 0.67 →
        calculateNextDifficultyRuleBased 0 histC3 = max (0 - 1) 0)) :=
  ⟨⟨le_refl 0, by decide, by decide⟩,
    calculateNextDifficultyRuleBased_cases 0 histC3 (le_refl 0) (by decide) (by decide)⟩

/-- A possible predictor outcome whose softmax output puts all mass on
level 2. -/
def mlJump : MLPredictor := ⟨fun _ => some (0, 0, 1)⟩

/-- History used for the C4 failing input: two fast correct answers. -/
def histC4 : List Perf := [⟨true, 1000⟩, ⟨true, 1000⟩]

/-- C4 is violated by the code: `calculateNextDifficultyML` returns the
predicted index without clamping it to one step, so with current level 0
and a trained model whose prediction favours level 2 the decision jumps by
two levels.  The repository's documentation promises "±1 max change per
adjustment", so this is a code bug. -/
theorem calculateNextDifficulty_skips_level :
    calculateNextDifficulty true mlJump 0 histC4 = 2 ∧
      1 < |calculateNextDifficulty true mlJump 0 histC4 - 0| := by
  have hmax : max (0 : ℚ) (max 0 1) = 1 := by
    rw [max_eq_right (by norm_num : (0 : ℚ) ≤ 1), max_eq_right (by norm_num : (0 : ℚ) ≤ 1)]
  have h2 : calculateNextDifficulty true mlJump 0 histC4 = 2 := by
    unfold calculateNextDifficulty calculateNextDifficultyML
    rw [if_pos rfl, if_neg (by decide)]
    show predictedDiffOfData 0 0 1 = 2
    unfold predictedDiffOfData
    rw [hmax, if_neg (by norm_num : ¬(0 : ℚ) = 1), if_neg (by norm_num : ¬(0 : ℚ) = 1)]
  exact ⟨h2, by rw [h2]; decide⟩

/-- A possible predictor outcome with top output confidence 0.4 ≤ 0.7. -/
def mlLowConf : MLPredictor := ⟨fun _ => some (0.4, 0.35, 0.25)⟩

/-- History used for the C5 failing input: two fast correct answers. -/
def histC5 : List Perf := [⟨true, 1000⟩, ⟨true, 1000⟩]

/-- C5 is violated by the code: `calculateNextDifficultyML` applies no
confidence threshold, so a prediction whose top confidence is 0.4 (at or
below 0.7) is still used.  On `histC5` the rule-based decision from level 1
is 2, but the engine returns the low-confidence predicted level 0.  The
repository's documentation prescribes "Apply confidence threshold (>0.7);
fallback to rule-based if low confidence", so this is a code bug. -/
theorem calculateNextDifficulty_uses_low_confidence :
    max (0.4 : ℚ) (max 0.35 0.25) ≤ 0.7 ∧
    calculateNextDifficulty true mlLowConf 1 histC5 = 0 ∧
    calculateNextDifficultyRuleBased 1 histC5 = 2 ∧
    calculateNextDifficulty true mlLowConf 1 histC5 ≠
      calculateNextDifficultyRuleBased 1 histC5 := by
  have hconf : max (0.4 : ℚ) (max 0.35 0.25) ≤ 0.7 := by
    rw [max_eq_left (by norm_num : (0.25 : ℚ) ≤ 0.35),
      max_eq_left (by norm_num : (0.35 : ℚ) ≤ 0.4)]
    norm_num
  have hml : calculateNextDifficulty true mlLowConf 1 histC5 = 0 := by
    unfold calculateNextDifficulty calculateNextDifficultyML
    rw [if_pos rfl, if_neg (by decide)]
    show predictedDiffOfData 0.4 0.35 0.25 = 0
    unfold predictedDiffOfData
    rw [max_eq_left (by norm_num : (0.25 : ℚ) ≤ 0.35),
      max_eq_left (by norm_num : (0.35 : ℚ) ≤ 0.4), if_pos rfl]
  have hacc : recentAccuracy histC5 = 1 := by
    show ((List.filter (fun p => p.correct) (recentWindow histC5)).length : ℚ) /
      ((recentWindow histC5).length : ℚ) = 1
    norm_num [recentWindow, histC5]
  have htime : recentAvgTime histC5 = 1000 := by
    show (((List.map (fun p => p.time) (recentWindow histC5)).sum : Int) : ℚ) /
      ((recentWindow histC5).length : ℚ) = 1000
    norm_num [recentWindow, histC5]
  have hrb : calculateNextDifficultyRuleBased 1 histC5 = 2 := by
    unfold calculateNextDifficultyRuleBased
    rw [if_neg (by decide), if_pos (by rw [hacc, htime]; norm_num)]
    show max 0 (min 2 (1 + 1)) = 2
    decide
  refine ⟨hconf, hml, hrb, ?_⟩
  rw [hml, hrb]
  decide

/-!
The rating system, from `rating.js`.  `Math.round` on a JavaScript number
is `x ↦ ⌊x + 1/2⌋`, which is Mathlib's `round`.  The ELO expected score
uses a real power `10 ^ ((1500 - rating) / 400)`, modelled with the real
number power; it is irrational in general, so `updatePlayerRating` is a
noncomputable real-valued model.
-/

/-- The `difficultyMultiplier` object `{0: 1.0, 1: 1.5, 2: 2.0}`. -/
def difficultyMultiplier : Fin 3 → ℚ
  | ⟨0, _⟩ => 1.0
  | ⟨1, _⟩ => 1.5
  | ⟨_ + 2, _⟩ => 2.0

/-- `calculateSessionRating(accuracy, avgTime, finalDifficulty)` of
`rating.js`: accuracy component, capped speed component, difficulty
multiplier, consistency bonus, rounded. -/
def calculateSessionRating (accuracy avgTime : ℚ) (finalDifficulty : Fin 3) : Int :=
  let rating1 := accuracy * 5
  let speedScore := max 0 (300 - avgTime / 15000 * 300)
  let rating2 := rating1 + speedScore
  let rating3 := rating2 * difficultyMultiplier finalDifficulty
  let rating4 := if accuracy > 80 then rating3 + 100 else rating3
  round rating4

/-- C6: for every accuracy percentage, average time and final level, the
session score equals
`round((accuracy*5 + max 0 (300 - avgTime/15000*300)) * multiplier + bonus)`
with multiplier 1.0/1.5/2.0 for Easy/Medium/Hard and bonus 100 exactly when
accuracy > 80; in particular the score for accuracy 100, average time
3000 ms and Hard is 1580. -/
theorem calculateSessionRating_formula :
    (∀ (accuracy avgTime : ℚ) (finalDifficulty : Fin 3),
      calculateSessionRating accuracy avgTime finalDifficulty =
        round ((accuracy * 5 + max 0 (300 - avgTime / 15000 * 300)) *
          difficultyMultiplier finalDifficulty +
          (if accuracy > 80 then (100 : ℚ) else 0))) ∧
    calculateSessionRating 100 3000 2 = 1580 := by
  have hgen : ∀ (accuracy avgTime : ℚ) (finalDifficulty : Fin 3),
      calculateSessionRating accuracy avgTime finalDifficulty =
        round ((accuracy * 5 + max 0 (300 - avgTime / 15000 * 300)) *
          difficultyMultiplier finalDifficulty +
          (if accuracy > 80 then (100 : ℚ) else 0)) := by
    intro accuracy avgTime finalDifficulty
    simp only [calculateSessionRating]
    by_cases hacc : accuracy > 80
    · rw [if_pos hacc, if_pos hacc]
    · rw [if_neg hacc, if_neg hacc, add_zero]
  refine ⟨hgen, ?_⟩
  rw [hgen 100 3000 2]
  rw [if_pos (by norm_num : (100 : ℚ) > 80)]
  rw [show (300 : ℚ) - 3000 / 15000 * 300 = 240 by norm_num,
    max_eq_right (by norm_num : (0 : ℚ) ≤ 240)]
  rw [show difficultyMultiplier 2 = 2 by norm_num [difficultyMultiplier]]
  rw [show ((100 : ℚ) * 5 + 240) * 2 + 100 = ((1580 : Int) : ℚ) by norm_num]
  exact round_intCast 1580

/-- The global `userData` record of `config.js`, restricted to the fields
`updatePlayerRating` reads and writes (`sessionsHistory` is only appended
elsewhere). -/
structure UserData where
  rating : Int
  gamesPlayed : Int
  totalAccuracy : ℚ
  bestRating : Int

/-- `updatePlayerRating(sessionScore)` of `rating.js`, with the global
`userData` passed and returned explicitly; the second component is the
returned `ratingChange`. -/
noncomputable def updatePlayerRating (userData : UserData) (sessionScore : Int) :
    UserData × Int :=
  let oldRating := userData.rating
  let expectedScore : ℝ := 1 / (1 + (10 : ℝ) ^ (((1500 - oldRating : Int) : ℝ) / 400))
  let actualScore : ℝ := min ((sessionScore : ℝ) / 1000) 1
  let kFactor : ℝ := if userData.gamesPlayed < 10 then 40 else 20
  let ratingChange : Int := round (kFactor * (actualScore - expectedScore))
  let newRating := max 100 (oldRating + ratingChange)
  let newBest := if newRating > userData.bestRating then newRating else userData.bestRating
  ({ userData with rating := newRating, bestRating := newBest }, ratingChange)

/-- C7: for every prior user state and session score, the rating resulting
from the ELO-style update is at least 100. -/
theorem updatePlayerRating_floor (u : UserData) (s : Int) :
    100 ≤ ((updatePlayerRating u s).1).rating := by
  unfold updatePlayerRating
  exact le_max_left _ _

/-- C10: after every rating update the stored best rating equals the
maximum of its previous value and the new rating, hence the invariant
`rating ≤ bestRating` holds after every update. -/
theorem updatePlayerRating_best (u : UserData) (s : Int) :
    ((updatePlayerRating u s).1).bestRating =
      max u.bestRating ((updatePlayerRating u s).1).rating ∧
    ((updatePlayerRating u s).1).rating ≤ ((updatePlayerRating u s).1).bestRating := by
  unfold updatePlayerRating
  dsimp only
  split_ifs with h1 h2 h3
  · exact ⟨(max_eq_right (le_of_lt h2)).symm, le_refl _⟩
  · exact ⟨(max_eq_left (le_of_not_lt h2)).symm, le_of_not_lt h2⟩
  · exact ⟨(max_eq_right (le_of_lt h3)).symm, le_refl _⟩
  · exact ⟨(max_eq_left (le_of_not_lt h3)).symm, le_of_not_lt h3⟩
